import Mathlib

/-!
Verification of the pyinkscape field-resolution core (`pyinkscape/xmlnav.py`
and the field API of `pyinkscape/inkscape.py`) against its specification.

The XML element tree is shallowly embedded as a nested inductive type.  An
element carries an optional tag, an attribute list, an optional text payload,
an optional tail (the text that follows the element inside its parent, as in
Python's ElementTree data model) and an ordered list of children.  Python-level
failures (raise statements, failed assertions, `len(None)`) are modelled with
`Except PyError`.
-/

/-- Errors raised by the Python code under study. -/
inductive PyError : Type where
  | valueError
  | typeError
  | assertionError
  | indexError
deriving DecidableEq, Repr

/-- An XML element in the ElementTree data model: tag, attributes, own text,
tail text, children. -/
inductive Element : Type where
  | mk : Option String → List (String × String) → Option String → Option String →
      List Element → Element

mutual

def elementDecEq : (a b : Element) → Decidable (a = b)
  | .mk t1 a1 x1 l1 c1, .mk t2 a2 x2 l2 c2 =>
    if h1 : t1 = t2 then
      if h2 : a1 = a2 then
        if h3 : x1 = x2 then
          if h4 : l1 = l2 then
            match elementListDecEq c1 c2 with
            | isTrue h5 => isTrue (by rw [h1, h2, h3, h4, h5])
            | isFalse h5 => isFalse (by intro he; injection he; contradiction)
          else isFalse (by intro he; injection he; contradiction)
        else isFalse (by intro he; injection he; contradiction)
      else isFalse (by intro he; injection he; contradiction)
    else isFalse (by intro he; injection he; contradiction)

def elementListDecEq : (a b : List Element) → Decidable (a = b)
  | [], [] => isTrue rfl
  | [], _ :: _ => isFalse (by simp)
  | _ :: _, [] => isFalse (by simp)
  | x :: xs, y :: ys =>
    match elementDecEq x y, elementListDecEq xs ys with
    | isTrue h1, isTrue h2 => isTrue (by rw [h1, h2])
    | isFalse h1, _ => isFalse (by intro he; injection he; contradiction)
    | _, isFalse h2 => isFalse (by intro he; injection he; contradiction)

end

instance : DecidableEq Element := elementDecEq

def Element.tag : Element → Option String
  | .mk t _ _ _ _ => t

def Element.attrs : Element → List (String × String)
  | .mk _ a _ _ _ => a

def Element.text : Element → Option String
  | .mk _ _ tx _ _ => tx

def Element.tail : Element → Option String
  | .mk _ _ _ tl _ => tl

def Element.children : Element → List Element
  | .mk _ _ _ _ ch => ch

/-- Python truthiness of an optional string: `None` and `""` are falsey. -/
def pyTruthy : Option String → Bool
  | none => false
  | some s => s ≠ ""

/-- Whitespace in the sense of Python's `str.strip`. -/
def pyIsSpace (c : Char) : Bool :=
  c = ' ' || c = '\t' || c = '\n' || c = '\r' || c = '\x0b' || c = '\x0c'

/-- Python `str.strip()`: drop whitespace from both ends. -/
def pyStrip (s : String) : String :=
  String.mk (((s.data.dropWhile pyIsSpace).reverse.dropWhile pyIsSpace).reverse)

/-- Python `str.lower()` (ASCII case folding, which covers XML tag names). -/
def pyLower (s : String) : String :=
  String.mk (s.data.map Char.toLower)

/-- Replace every non-overlapping occurrence of `pat` by `repl`, scanning left
to right: the semantics of Python's `str.replace`.  An empty pattern is left
untouched (the code never uses one).  The `fuel` argument makes the recursion
structural; each step consumes at least one character, so `fuel` at least the
length of the subject string is always enough. -/
def replaceCharsF : Nat → List Char → List Char → List Char → List Char
  | _, _, _, [] => []
  | 0, _, _, xs => xs
  | fuel + 1, pat, repl, c :: cs =>
    if !pat.isEmpty && pat.isPrefixOf (c :: cs) then
      repl ++ replaceCharsF fuel pat repl (List.drop pat.length (c :: cs))
    else
      c :: replaceCharsF fuel pat repl cs

/-- Python `s.replace(pat, repl)`. -/
def pyReplace (s pat repl : String) : String :=
  String.mk (replaceCharsF s.length pat.data repl.data s.data)

instance {ε α : Type} [DecidableEq ε] [DecidableEq α] : DecidableEq (Except ε α) :=
  fun a b =>
  match a, b with
  | .ok x, .ok y =>
    if h : x = y then isTrue (by rw [h])
    else isFalse (by intro he; injection he; contradiction)
  | .error x, .error y =>
    if h : x = y then isTrue (by rw [h])
    else isFalse (by intro he; injection he; contradiction)
  | .ok _, .error _ => isFalse (fun he => Except.noConfusion he)
  | .error _, .ok _ => isFalse (fun he => Except.noConfusion he)

/-- Constant `SVG_NS` from `xmlnav.py`. -/
def SVG_NS : String := "http://www.w3.org/2000/svg"

/-- The namespace qualifier "\x7b" ++ SVG_NS ++ "\x7d" used as the default
`exclude` argument. -/
def svgBrace : String := "\x7b" ++ SVG_NS ++ "\x7d"

/-- A tag qualified with the SVG namespace, e.g. the on-disk form of `tspan`. -/
def svgTag (name : String) : String := svgBrace ++ name

/-- Function `clean_tag_str` from `xmlnav.py` (single-string `exclude` as used by
`_get_leaf`): remove every occurrence of `exclude` from `tag`. -/
def clean_tag_str (tag : String) (exclude : String := svgBrace) : String :=
  pyReplace tag exclude ""

mutual

/-- Model of `Element.itertext` of ElementTree/lxml: the element's own text followed,
in document order, by each child's `itertext` and the child's tail; `None`
and empty fragments are skipped. -/
def itertext : Element → List String
  | .mk _ _ tx _ ch =>
    (match tx with
     | some t => if t ≠ "" then [t] else []
     | none => []) ++ itertextList ch

def itertextList : List Element → List String
  | [] => []
  | c :: rest =>
    itertext c ++
    (match c.tail with
     | some t => if t ≠ "" then [t] else []
     | none => []) ++ itertextList rest

end

/-- The test applied to the element's own text in `has_text`:
`element.text and (spacing or element.text.strip())`. -/
def own_text_present (tx : Option String) (spacing : Bool) : Bool :=
  match tx with
  | none => false
  | some t => t ≠ "" && (spacing || pyStrip t ≠ "")

/-- The test applied to each fragment in the `itertext` loop of `has_text`:
`(spacing and text) or text.strip()`. -/
def loop_text_present (t : String) (spacing : Bool) : Bool :=
  (spacing && t ≠ "") || pyStrip t ≠ ""

/-- Function `has_text` from `xmlnav.py`. -/
def has_text (element : Element) (spacing : Bool) (recursive : Bool := true) : Bool :=
  if own_text_present element.text spacing then true
  else if !recursive then false
  else (itertext element).any (fun t => loop_text_present t spacing)

/-- Function `used_elements` from `xmlnav.py`.  The Lean embedding is typed, so the
`TypeError` branch for a non-list argument cannot arise. -/
def used_elements (elements : List Element) (spacing : Bool := false) : List Element :=
  elements.filter (fun elem => has_text elem spacing)

/-- Function `used_element` from `xmlnav.py`.  `elements[0]` on an empty list raises
`IndexError`. -/
def used_element (elements : List Element) (spacing : Bool := false)
    (get_any_if_one : Bool := false) : Except PyError (Option Element) :=
  if get_any_if_one && elements.length == 1 then
    .ok elements.head?
  else
    let used := used_elements elements spacing
    if used.length == 0 then
      if get_any_if_one then
        match elements with
        | [] => .error .indexError
        | e :: _ => .ok (some e)
      else .ok none
    else
      .ok used.head?

/-- Function `child_tags` from `xmlnav.py`: children whose raw tag equals `tag`
(`child.tag == tag`, an exact string comparison). -/
def child_tags (el : Element) (tag : String) : List Element :=
  el.children.filter (fun child => child.tag == some tag)

/-- The comparison `el_tag and (el_tag.lower() == tag.lower())` performed by
`_get_leaf` after cleaning the element's tag. -/
def tag_matches (el : Element) (tag : String) : Bool :=
  match el.tag with
  | none => false
  | some t =>
    let c := clean_tag_str t
    c ≠ "" && pyLower c == pyLower tag

/-- The condition under which `_get_leaf` records the current element as
`matching_ancestor`. -/
def isCandidate (el : Element) (tag : String) (skip_empty spacing : Bool) : Bool :=
  tag_matches el tag &&
    ((!skip_empty && (child_tags el tag).isEmpty) || has_text el spacing false)

/-- Whether the `assert "\x7b" not in el_tag` in `_get_leaf` fails on this
element (the assert runs only when the cleaned tag is truthy). -/
def assertTrips (el : Element) : Bool :=
  match el.tag with
  | none => false
  | some t =>
    let c := clean_tag_str t
    c ≠ "" && c.data.contains '\x7b'

mutual

/-- Function `_get_leaf` from `xmlnav.py`, for the case where the argument is an
element (the `None`/list/tuple/str guards live in `get_leaf`, since children
of an element are always elements). -/
def _get_leaf (el : Element) (tag : String) (skip_empty spacing : Bool)
    (matching_ancestor : Option Element) : Except PyError (Option Element) :=
  match el with
  | .mk t a tx tl children =>
    let this := Element.mk t a tx tl children
    if assertTrips this then .error .assertionError
    else
      let ma := if isCandidate this tag skip_empty spacing then some this
                else matching_ancestor
      _get_leaf_list children tag skip_empty spacing ma
termination_by structural el

/-- The `for child in el` loop of `_get_leaf`: the first recursive result
that is not `None` is returned; otherwise the matching ancestor is. -/
def _get_leaf_list (children : List Element) (tag : String)
    (skip_empty spacing : Bool) (matching_ancestor : Option Element) :
    Except PyError (Option Element) :=
  match children with
  | [] => .ok matching_ancestor
  | child :: rest =>
    match _get_leaf child tag skip_empty spacing matching_ancestor with
    | .error e => .error e
    | .ok (some result) => .ok (some result)
    | .ok none => _get_leaf_list rest tag skip_empty spacing matching_ancestor
termination_by structural children

end

/-- The Python value passed as the `el` argument of `get_leaf`: the code
guards against `None`, lists, tuples and strings. -/
inductive PyValue : Type where
  | none
  | element (e : Element)
  | list (xs : List Element)
  | tuple (xs : List Element)
  | str (s : String)

/-- Function `get_leaf` from `xmlnav.py`: the argument checks at the top of
`_get_leaf`, then the traversal with no remembered ancestor. -/
def get_leaf (el : PyValue) (tag : String) (skip_empty : Bool := false)
    (spacing : Bool := false) : Except PyError (Option Element) :=
  match el with
  | .none => .error .valueError
  | .list _ => .error .typeError
  | .tuple _ => .error .typeError
  | .str _ => .error .typeError
  | .element e => _get_leaf e tag skip_empty spacing none

/-- Attribute lookup `element.get(name)`: first binding of an attribute. -/
def getAttr (el : Element) (name : String) : Option String :=
  (el.attrs.find? (fun kv => kv.1 == name)).map (fun kv => kv.2)

mutual

/-- All proper descendants of an element in document (pre-)order, each paired
with its path of child indices.  Paths model Python object identity: mutation
through a path is the pure counterpart of assigning to a shared node. -/
def descWP : Element → List (List Nat × Element)
  | .mk _ _ _ _ ch => descWPList ch 0

def descWPList : List Element → Nat → List (List Nat × Element)
  | [], _ => []
  | c :: rest, i =>
    ([i], c) :: ((descWP c).map (fun q => (i :: q.1, q.2)) ++ descWPList rest (i + 1))

end

mutual

/-- Set the text payload of the node at the given path (`leaf.text = value`). -/
def setTextAt : Element → List Nat → Option String → Element
  | .mk t a _ tl ch, [], v => .mk t a v tl ch
  | .mk t a tx tl ch, i :: p, v => .mk t a tx tl (setTextAtList ch i p v)

def setTextAtList : List Element → Nat → List Nat → Option String → List Element
  | [], _, _, _ => []
  | c :: rest, 0, p, v => setTextAt c p v :: rest
  | c :: rest, i + 1, p, v => c :: setTextAtList rest i p v

end

/-- Method `Canvas.getElementById` with the default `skip_empty=False`, as called by
`getField` and `setField`: the first element (in document order) carrying the
id, via the query `.//*[@id=...]`. -/
def getElementByIdWP (root : Element) (id : String) : Option (List Nat × Element) :=
  ((descWP root).filter (fun q => getAttr q.2 "id" == some id)).head?

/-- Method `Canvas.getLeavesById`: first the query `.//svg:TAG[@id=...]/svg:LEAF`,
then the speculative fallback `.//svg:g[@id=...]//svg:LEAF`; `None` when both
are empty.  `skip_empty` filters through `used_elements`. -/
def getLeavesById (root : Element) (id tag leaf_tag : String)
    (skip_empty : Bool := true) (spacing : Bool := true) :
    Option (List (List Nat × Element)) :=
  let q1 := (descWP root).filter
    (fun q => q.2.tag == some (svgTag tag) && getAttr q.2 "id" == some id)
  let elements := q1.flatMap
    (fun q => (q.2.children.enum.filter
        (fun jc => jc.2.tag == some (svgTag leaf_tag))).map
      (fun jc => (q.1 ++ [jc.1], jc.2)))
  if elements.isEmpty then
    let gs := (descWP root).filter
      (fun q => q.2.tag == some (svgTag "g") && getAttr q.2 "id" == some id)
    let elements2 := gs.flatMap
      (fun q => ((descWP q.2).filter
          (fun r => r.2.tag == some (svgTag leaf_tag))).map
        (fun r => (q.1 ++ r.1, r.2)))
    if elements2.isEmpty then none
    else
      some (if skip_empty then elements2.filter (fun q => has_text q.2 spacing)
            else elements2)
  else
    some (if skip_empty then elements.filter (fun q => has_text q.2 spacing)
          else elements)

mutual

/-- Path-tracking twin of `_get_leaf`, used where the found leaf must be
mutated (`setField`'s fallback branch): same traversal, but the remembered
ancestor is a path from the document root. -/
def _get_leaf_path (p : List Nat) (el : Element) (tag : String)
    (skip_empty spacing : Bool) (matching_ancestor : Option (List Nat)) :
    Except PyError (Option (List Nat)) :=
  match el with
  | .mk t a tx tl ch =>
    let this := Element.mk t a tx tl ch
    if assertTrips this then .error .assertionError
    else
      let ma := if isCandidate this tag skip_empty spacing then some p
                else matching_ancestor
      _get_leaf_path_list p 0 ch tag skip_empty spacing ma
termination_by structural el

def _get_leaf_path_list (p : List Nat) (i : Nat) (children : List Element)
    (tag : String) (skip_empty spacing : Bool)
    (matching_ancestor : Option (List Nat)) : Except PyError (Option (List Nat)) :=
  match children with
  | [] => .ok matching_ancestor
  | child :: rest =>
    match _get_leaf_path (p ++ [i]) child tag skip_empty spacing matching_ancestor with
    | .error e => .error e
    | .ok (some result) => .ok (some result)
    | .ok none => _get_leaf_path_list p (i + 1) rest tag skip_empty spacing matching_ancestor
termination_by structural children

end

/-- The write loop of `setField`: the first leaf receives the value, every
later leaf the empty string (`new_value = ""` after the first assignment). -/
def setLeavesTexts (root : Element) (paths : List (List Nat)) (value : String) :
    Element × String :=
  paths.foldl (fun acc p => (setTextAt acc.1 p (some acc.2), "")) (root, value)

/-- Method `Canvas.setField`.  When `getLeavesById` yields `None`, the Python code
evaluates `len(None)` and so raises `TypeError`. -/
def setField (root : Element) (id : String) (value : String)
    (skip_empty : Bool := false) (spacing : Bool := false) :
    Except PyError (Element × Bool) :=
  match getLeavesById root id "text" "tspan" skip_empty spacing with
  | none => .error .typeError
  | some leaves =>
    if leaves.length > 0 then
      .ok ((setLeavesTexts root (leaves.map (fun q => q.1)) value).1, true)
    else
      match getElementByIdWP root id with
      | some (p, e) =>
        match _get_leaf_path p e "tspan" skip_empty spacing none with
        | .error err => .error err
        | .ok (some lp) => .ok (setTextAt root lp (some value), true)
        | .ok none => .ok (root, false)
      | none => .ok (root, false)

/-- Method `Canvas.getField`: first element with the id, then the deepest `tspan`
with `skip_empty=False`, returning its text. -/
def getField (root : Element) (id : String) : Except PyError (Option String) :=
  match getElementByIdWP root id with
  | none => .ok none
  | some (_, el) =>
    match _get_leaf el "tspan" false false none with
    | .error e => .error e
    | .ok none => .ok none
    | .ok (some leaf) => .ok leaf.text

/-! ## Predicates and concrete documents used by the specification claims -/

/-- The recording condition of `_get_leaf`, spelled out: nonempty cleaned tag
compared case-insensitively, and same-tag children detected by raw string
equality of `child.tag` with the requested tag (this is what the code's
`child_tags` does). -/
def recordedCandidateAmended (el : Element) (tag : String) (se sp : Bool) : Bool :=
  (match el.tag with
   | none => false
   | some t => clean_tag_str t ≠ "" && pyLower (clean_tag_str t) == pyLower tag) &&
  ((!se && (el.children.filter (fun c => c.tag == some tag)).isEmpty) ||
    has_text el sp false)

/-- The candidate condition as claim C3 words it (a refinement-comparison
definition following the claim, not the code): same-tag children are detected
by the same normalized, case-insensitive comparison as the node's own match. -/
def candidateSpecNormalized (el : Element) (tag : String) (se sp : Bool) : Bool :=
  tag_matches el tag &&
  ((!se && (el.children.filter (fun c => tag_matches c tag)).isEmpty) ||
    has_text el sp false)

/-- First child of the C1 counterexample: no `tspan` anywhere below it. -/
def exC1First : Element := .mk (some "a") [] none none []

/-- Second child of the C1 counterexample: a deeper `tspan` candidate match. -/
def exC1Deep : Element := .mk (some "tspan") [] (some "B") none []

/-- C1 counterexample root: itself a candidate match (it has text), with an
unproductive first child and a matching second child. -/
def exC1Root : Element := .mk (some "tspan") [] (some "x") none [exC1First, exC1Deep]

/-- C3 counterexample: an SVG-qualified `tspan` whose only child is again an
SVG-qualified `tspan` (the raw tag differs from the bare request string). -/
def exC3Child : Element := .mk (some (svgTag "tspan")) [] none none []

def exC3El : Element := .mk (some (svgTag "tspan")) [] none none [exC3Child]

/-- C4 counterexample: a `tspan` qualified with a namespace other than SVG. -/
def exC4Foreign : Element := .mk (some "\x7bhttp://example.com\x7dtspan") [] (some "B") none []

/-- C7 counterexample: a tree whose only tag carries a non-SVG namespace. -/
def exC7Foreign : Element := .mk (some "\x7bhttp://a\x7db") [] none none []

/-- A tree with a clean tag that does not match `tspan`. -/
def exNoMatch : Element := .mk (some "a") [] (some "B") none []

/-- An element whose only text is three space characters. -/
def exSpaces : Element := .mk (some "test") [] (some "   ") none []

/-- A blank element (no text anywhere). -/
def exBlank : Element := .mk (some "t") [] none none []

/-- An element holding the text "B". -/
def exUsed : Element := .mk (some "t") [] (some "B") none []

/-- A childless SVG `tspan` candidate with the given text payload. -/
def blankTspan (tx : Option String) : Element := .mk (some (svgTag "tspan")) [] tx none []

/-- An SVG `text` element with the given id whose children are `ts`. -/
def fieldText (id : String) (ts : List Element) : Element :=
  .mk (some (svgTag "text")) [("id", id)] none none ts

/-- A document whose only content is one identified `text` element. -/
def fieldDoc (id : String) (ts : List Element) : Element :=
  .mk (some (svgTag "svg")) [] none none [fieldText id ts]

/-- The candidate tspans after `setField`'s write loop: the first holds the
value, all later ones the empty string. -/
def writtenTspans : List (Option String) → String → List Element
  | [], _ => []
  | _ :: rest, v => blankTspan (some v) :: rest.map (fun _ => blankTspan (some ""))

/-- C5 counterexample: the identified `text` holds one candidate `tspan`
which itself wraps a nested empty `tspan`. -/
def exC5Inner : Element := .mk (some (svgTag "tspan")) [] none none []

def exC5Outer : Element := .mk (some (svgTag "tspan")) [] none none [exC5Inner]

def exC5Doc : Element := fieldDoc "f" [exC5Outer]

/-- The C5 counterexample document after `setField _ "f" "17"`. -/
def exC5Outer2 : Element := .mk (some (svgTag "tspan")) [] (some "17") none [exC5Inner]

def exC5Doc2 : Element := fieldDoc "f" [exC5Outer2]

/-- C2 failing input: a document containing no identified element at all. -/
def exC2Doc : Element := .mk (some (svgTag "svg")) [] none none []

mutual

/-- No element of the subtree trips the namespace assertion. -/
def treeClean : Element → Bool
  | .mk t a tx tl ch => !assertTrips (.mk t a tx tl ch) && treeCleanList ch

def treeCleanList : List Element → Bool
  | [] => true
  | c :: rest => treeClean c && treeCleanList rest

end

mutual

/-- No element of the subtree passes the (cleaned, case-insensitive) tag
comparison against `tag`. -/
def noTagMatchTree (tag : String) : Element → Bool
  | .mk t a tx tl ch => !tag_matches (.mk t a tx tl ch) tag && noTagMatchList tag ch

def noTagMatchList (tag : String) : List Element → Bool
  | [] => true
  | c :: rest => noTagMatchTree tag c && noTagMatchList tag rest

end

/-! ## Basic lemmas about the resolver -/

theorem _get_leaf_unfold (el : Element) (tag : String) (se sp : Bool)
    (ma : Option Element) :
    _get_leaf el tag se sp ma =
      if assertTrips el then .error .assertionError
      else _get_leaf_list el.children tag se sp
        (if isCandidate el tag se sp then some el else ma) := by
  cases el
  rfl

theorem _get_leaf_list_nil (tag : String) (se sp : Bool) (ma : Option Element) :
    _get_leaf_list [] tag se sp ma = .ok ma := rfl

theorem _get_leaf_list_cons (c : Element) (rest : List Element) (tag : String)
    (se sp : Bool) (ma : Option Element) :
    _get_leaf_list (c :: rest) tag se sp ma =
      match _get_leaf c tag se sp ma with
      | .error e => .error e
      | .ok (some result) => .ok (some result)
      | .ok none => _get_leaf_list rest tag se sp ma := rfl

mutual

/-- Once an ancestor candidate is remembered, the traversal never reports
"nothing found": it either raises or returns some element. -/
theorem _get_leaf_ne_ok_none (el : Element) (tag : String) (se sp : Bool)
    (ma : Option Element) (h : ma.isSome) :
    _get_leaf el tag se sp ma ≠ .ok none := by
  cases el with
  | mk t a tx tl ch =>
    rw [_get_leaf_unfold]
    split
    · intro hcontra
      exact Except.noConfusion hcontra
    · apply _get_leaf_list_ne_ok_none
      split
      · rfl
      · exact h

theorem _get_leaf_list_ne_ok_none (children : List Element) (tag : String)
    (se sp : Bool) (ma : Option Element) (h : ma.isSome) :
    _get_leaf_list children tag se sp ma ≠ .ok none := by
  match children with
  | [] =>
    rw [_get_leaf_list_nil]
    intro hcontra
    injection hcontra with h2
    rw [h2] at h
    exact Bool.noConfusion h
  | c :: rest =>
    rw [_get_leaf_list_cons]
    cases hres : _get_leaf c tag se sp ma with
    | error e => intro hcontra; exact Except.noConfusion hcontra
    | ok r =>
      cases r with
      | some result => intro hcontra; injection hcontra with h2; exact Option.noConfusion h2
      | none => exact _get_leaf_list_ne_ok_none rest tag se sp ma h

end

theorem _get_leaf_list_cons_error (c : Element) (rest : List Element) (tag : String)
    (se sp : Bool) (ma : Option Element) (e : PyError)
    (h : _get_leaf c tag se sp ma = .error e) :
    _get_leaf_list (c :: rest) tag se sp ma = .error e := by
  rw [_get_leaf_list_cons, h]

theorem _get_leaf_list_cons_some (c : Element) (rest : List Element) (tag : String)
    (se sp : Bool) (ma : Option Element) (r : Element)
    (h : _get_leaf c tag se sp ma = .ok (some r)) :
    _get_leaf_list (c :: rest) tag se sp ma = .ok (some r) := by
  rw [_get_leaf_list_cons, h]

theorem _get_leaf_list_cons_none (c : Element) (rest : List Element) (tag : String)
    (se sp : Bool) (ma : Option Element)
    (h : _get_leaf c tag se sp ma = .ok none) :
    _get_leaf_list (c :: rest) tag se sp ma = _get_leaf_list rest tag se sp ma := by
  rw [_get_leaf_list_cons, h]

mutual

/-- Any element the resolver returns passed the tag comparison: it was at some
point recorded as the matching ancestor. -/
theorem _get_leaf_result_matches (el : Element) (tag : String) (se sp : Bool)
    (ma : Option Element) (hma : ∀ x, ma = some x → tag_matches x tag = true)
    (r : Element) (hr : _get_leaf el tag se sp ma = .ok (some r)) :
    tag_matches r tag = true := by
  cases el with
  | mk t a tx tl ch =>
    rw [_get_leaf_unfold] at hr
    split at hr
    · exact Except.noConfusion hr
    · refine _get_leaf_list_result_matches ch tag se sp _ ?_ r hr
      intro x hx
      split at hx
      case isTrue hc =>
        injection hx with hx2
        rw [← hx2]
        rw [isCandidate] at hc
        exact (Bool.and_eq_true _ _ |>.mp hc).1
      case isFalse => exact hma x hx

theorem _get_leaf_list_result_matches (children : List Element) (tag : String)
    (se sp : Bool) (ma : Option Element)
    (hma : ∀ x, ma = some x → tag_matches x tag = true)
    (r : Element) (hr : _get_leaf_list children tag se sp ma = .ok (some r)) :
    tag_matches r tag = true := by
  match children with
  | [] =>
    rw [_get_leaf_list_nil] at hr
    injection hr with h2
    exact hma r h2
  | c :: rest =>
    cases hres : _get_leaf c tag se sp ma with
    | error e =>
      rw [_get_leaf_list_cons_error c rest tag se sp ma e hres] at hr
      exact Except.noConfusion hr
    | ok o =>
      cases o with
      | some result =>
        rw [_get_leaf_list_cons_some c rest tag se sp ma result hres] at hr
        injection hr with h2
        injection h2 with h3
        rw [← h3]
        exact _get_leaf_result_matches c tag se sp ma hma result hres
      | none =>
        rw [_get_leaf_list_cons_none c rest tag se sp ma hres] at hr
        exact _get_leaf_list_result_matches rest tag se sp ma hma r hr

end

mutual

/-- On an assertion-clean subtree with no tag match anywhere, the traversal
returns the inherited ancestor unchanged and raises nothing. -/
theorem _get_leaf_no_match (el : Element) (tag : String) (se sp : Bool)
    (ma : Option Element) (hclean : treeClean el = true)
    (hno : noTagMatchTree tag el = true) :
    _get_leaf el tag se sp ma = .ok ma := by
  cases el with
  | mk t a tx tl ch =>
    rw [treeClean] at hclean
    rw [noTagMatchTree] at hno
    have hA := (Bool.and_eq_true _ _ |>.mp hclean).1
    have hCL := (Bool.and_eq_true _ _ |>.mp hclean).2
    have hM := (Bool.and_eq_true _ _ |>.mp hno).1
    have hNL := (Bool.and_eq_true _ _ |>.mp hno).2
    rw [_get_leaf_unfold]
    split
    case isTrue hA2 => rw [hA2] at hA; exact Bool.noConfusion hA
    case isFalse =>
      have hM' : tag_matches (Element.mk t a tx tl ch) tag = false := by
        rw [Bool.not_eq_true'] at hM
        exact hM
      have hcand : isCandidate (Element.mk t a tx tl ch) tag se sp = false := by
        rw [isCandidate, hM']
        rfl
      rw [hcand, if_neg Bool.false_ne_true]
      exact _get_leaf_list_no_match ch tag se sp ma hCL hNL

theorem _get_leaf_list_no_match (children : List Element) (tag : String)
    (se sp : Bool) (ma : Option Element) (hclean : treeCleanList children = true)
    (hno : noTagMatchList tag children = true) :
    _get_leaf_list children tag se sp ma = .ok ma := by
  match children with
  | [] => exact _get_leaf_list_nil tag se sp ma
  | c :: rest =>
    rw [treeCleanList] at hclean
    rw [noTagMatchList] at hno
    have hC := (Bool.and_eq_true _ _ |>.mp hclean).1
    have hCL := (Bool.and_eq_true _ _ |>.mp hclean).2
    have hM := (Bool.and_eq_true _ _ |>.mp hno).1
    have hNL := (Bool.and_eq_true _ _ |>.mp hno).2
    have hc := _get_leaf_no_match c tag se sp ma hC hM
    cases ma with
    | none =>
      rw [_get_leaf_list_cons_none c rest tag se sp none hc]
      exact _get_leaf_list_no_match rest tag se sp none hCL hNL
    | some x =>
      exact _get_leaf_list_cons_some c rest tag se sp (some x) x hc

end

/-! ## String-level lemmas for tag cleaning -/

theorem replaceCharsF_no_occ (b : Char) (p' repl : List Char) :
    ∀ (fuel : Nat) (xs : List Char), xs.length ≤ fuel → b ∉ xs →
      replaceCharsF fuel (b :: p') repl xs = xs := by
  intro fuel
  induction fuel with
  | zero =>
    intro xs hlen _
    cases xs with
    | nil => rfl
    | cons c cs => simp at hlen
  | succ f ih =>
    intro xs hlen hmem
    cases xs with
    | nil => rfl
    | cons c cs =>
      have hb : (b == c) = false := by
        rw [beq_eq_false_iff_ne]
        intro he
        exact hmem (he ▸ List.mem_cons_self c cs)
      have hlen2 : cs.length ≤ f := by
        simp only [List.length_cons] at hlen
        omega
      have hm2 : b ∉ cs := fun h2 => hmem (List.mem_cons_of_mem c h2)
      simp only [replaceCharsF, List.isPrefixOf_cons₂, hb, Bool.false_and,
        Bool.and_false, Bool.false_eq_true, if_false]
      rw [ih cs hlen2 hm2]

theorem replaceCharsF_consume_pattern (b : Char) (p' ys : List Char) (fuel : Nat)
    (hfuel : (b :: p').length + ys.length ≤ fuel) (hys : b ∉ ys) :
    replaceCharsF fuel (b :: p') [] ((b :: p') ++ ys) = ys := by
  cases fuel with
  | zero => simp at hfuel
  | succ f =>
    have hpre : (b :: p').isPrefixOf ((b :: p') ++ ys) = true := by
      rw [List.isPrefixOf_iff_prefix]
      exact List.prefix_append _ _
    rw [List.cons_append] at hpre
    have hys2 : ys.length ≤ f := by
      simp only [List.length_cons] at hfuel
      omega
    calc replaceCharsF (f + 1) (b :: p') [] ((b :: p') ++ ys)
        = replaceCharsF (f + 1) (b :: p') [] (b :: (p' ++ ys)) := by
          rw [List.cons_append]
      _ = [] ++ replaceCharsF f (b :: p') [] (List.drop (b :: p').length (b :: (p' ++ ys))) := by
          simp only [replaceCharsF, List.isEmpty_cons, Bool.not_false, hpre, Bool.and_self,
            if_true]
      _ = replaceCharsF f (b :: p') [] ys := by
          rw [List.nil_append, ← List.cons_append, List.drop_left]
      _ = ys := replaceCharsF_no_occ b p' [] f ys hys2 hys

theorem svgBrace_data : svgBrace.data = '\x7b' :: (SVG_NS.data ++ ['\x7d']) := by
  rfl

/-- Cleaning an SVG-namespace-qualified tag yields the bare local name, as
long as that name contains no further brace. -/
theorem clean_tag_str_svgTag (n : String) (h : '\x7b' ∉ n.data) :
    clean_tag_str (svgTag n) = n := by
  show String.mk (replaceCharsF (svgTag n).length svgBrace.data [] (svgTag n).data) = n
  have hdata : (svgTag n).data = svgBrace.data ++ n.data := by
    show (svgBrace ++ n).data = _
    rw [String.data_append]
  have hlen : (svgTag n).length = svgBrace.data.length + n.data.length := by
    show (svgTag n).data.length = _
    rw [hdata, List.length_append]
  rw [hdata, hlen, svgBrace_data]
  rw [replaceCharsF_consume_pattern _ _ _ _ (Nat.le_refl _) h]


theorem tag_matches_some (r : Element) (tag t : String) (h : r.tag = some t) :
    tag_matches r tag =
      (clean_tag_str t ≠ "" && pyLower (clean_tag_str t) == pyLower tag) := by
  unfold tag_matches
  rw [h]

/-! ## The specification claims -/

/-- Claim C9: `used_elements` (reduceCandidates) is idempotent: filtering an
already filtered candidate list changes nothing. -/
theorem used_elements_idempotent (elements : List Element) (spacing : Bool) :
    used_elements (used_elements elements spacing) spacing =
      used_elements elements spacing := by
  unfold used_elements
  rw [List.filter_filter]
  exact List.filter_congr (fun a _ => Bool.and_self _)

/-- Claim C2, evaluated at the failing input: on a document with no element
carrying the identifier, `setField` raises `TypeError` (it calls `len` on the
`None` returned by `getLeavesById`) instead of returning `False` with a
warning as its own docstring promises. -/
theorem setField_missing_id_raises :
    setField exC2Doc "missing" "17" false false = .error .typeError ∧
    getElementByIdWP exC2Doc "missing" = none ∧
    getLeavesById exC2Doc "missing" "text" "tspan" false false = none := by
  exact ⟨by decide, by decide, by decide⟩

/-- Claim C10: whenever the resolver returns an element, that element's tag,
with the SVG namespace qualifier stripped, equals the requested tag
case-insensitively. -/
theorem get_leaf_result_tag_invariant (el : Element) (tag : String)
    (se sp : Bool) (r : Element)
    (h : get_leaf (.element el) tag se sp = .ok (some r)) :
    ∃ t, r.tag = some t ∧ pyLower (clean_tag_str t) = pyLower tag := by
  have hm : tag_matches r tag = true := by
    refine _get_leaf_result_matches el tag se sp none ?_ r h
    intro x hx
    exact Option.noConfusion hx
  cases htag : r.tag with
  | none => rw [tag_matches, htag] at hm; exact Bool.noConfusion hm
  | some t =>
    rw [tag_matches_some r tag t htag] at hm
    refine ⟨t, rfl, ?_⟩
    exact eq_of_beq (Bool.and_eq_true _ _ |>.mp hm).2

theorem get_leaf_result_tag_invariant_witness :
    ∃ t, exC1Deep.tag = some t ∧ pyLower (clean_tag_str t) = pyLower "tspan" :=
  get_leaf_result_tag_invariant exC1Deep "tspan" false false exC1Deep
    (by decide)


/-- Claim C7 counterexample: this tree contains no element matching the
requested tag "c", yet the resolver raises (the namespace assertion fires on
the non-SVG qualified tag) instead of returning the absence value. -/
theorem get_leaf_no_match_raises_cex :
    noTagMatchTree "c" exC7Foreign = true ∧
    get_leaf (.element exC7Foreign) "c" false false = .error .assertionError := by
  exact ⟨by decide, by decide⟩

/-- Claim C7 amended: on a tree every element of which survives the namespace
assertion (its cleaned tag has no brace left), the resolver returns the
absence value, and never raises, whenever no element matches the tag; an
absent root raises `ValueError` and a list, tuple or string root raises
`TypeError`, in each case before any traversal. -/
theorem get_leaf_error_policy :
    (∀ (el : Element) (tag : String) (se sp : Bool),
        treeClean el = true → noTagMatchTree tag el = true →
        get_leaf (.element el) tag se sp = .ok none) ∧
    (∀ (tag : String) (se sp : Bool), get_leaf .none tag se sp = .error .valueError) ∧
    (∀ (xs : List Element) (tag : String) (se sp : Bool),
        get_leaf (.list xs) tag se sp = .error .typeError) ∧
    (∀ (xs : List Element) (tag : String) (se sp : Bool),
        get_leaf (.tuple xs) tag se sp = .error .typeError) ∧
    (∀ (s : String) (tag : String) (se sp : Bool),
        get_leaf (.str s) tag se sp = .error .typeError) := by
  refine ⟨?_, fun _ _ _ => rfl, fun _ _ _ _ => rfl, fun _ _ _ _ => rfl,
    fun _ _ _ _ => rfl⟩
  intro el tag se sp hclean hno
  show _get_leaf el tag se sp none = .ok none
  exact _get_leaf_no_match el tag se sp none hclean hno

theorem get_leaf_error_policy_witness :
    get_leaf (.element exNoMatch) "tspan" false false = .ok none :=
  get_leaf_error_policy.1 exNoMatch "tspan" false false (by decide) (by decide)

/-- Claim C4 counterexample: an element whose tag is the namespace-qualified
form of `tspan` for a namespace other than SVG is not matched by a resolver
call requesting "TSPAN"; the call raises an assertion error instead. -/
theorem get_leaf_foreign_namespace_cex :
    get_leaf (.element exC4Foreign) "TSPAN" false false =
      .error .assertionError := by
  decide

/-- Claim C4 amended: tag matching strips the SVG namespace qualifier (and
only it) and compares case-insensitively: an element whose tag is the
SVG-qualified form of a nonempty, brace-free local name is matched by a
request in any letter case; here such a childless element is returned. -/
theorem get_leaf_svg_namespace_case_insensitive
    (n tag : String) (attrs : List (String × String)) (tx tl : Option String)
    (sp : Bool) (hbrace : '\x7b' ∉ n.data) (hne : n ≠ "")
    (hcase : pyLower n = pyLower tag) :
    get_leaf (.element (.mk (some (svgTag n)) attrs tx tl [])) tag false sp =
      .ok (some (.mk (some (svgTag n)) attrs tx tl [])) := by
  show _get_leaf (.mk (some (svgTag n)) attrs tx tl []) tag false sp none = _
  have hclean : clean_tag_str (svgTag n) = n := clean_tag_str_svgTag n hbrace
  have hA : assertTrips (.mk (some (svgTag n)) attrs tx tl []) = false := by
    unfold assertTrips
    rw [Element.tag]
    show (decide ¬(clean_tag_str (svgTag n) = "") &&
      (clean_tag_str (svgTag n)).data.contains '\x7b') = false
    rw [hclean]
    simp [List.contains, hbrace]
  have hT : tag_matches (.mk (some (svgTag n)) attrs tx tl []) tag = true := by
    rw [tag_matches_some (.mk (some (svgTag n)) attrs tx tl []) tag (svgTag n)
      rfl, hclean]
    simp [hne, hcase]
  have hC : isCandidate (.mk (some (svgTag n)) attrs tx tl []) tag false sp = true := by
    rw [isCandidate, hT]
    simp [child_tags, Element.children]
  rw [_get_leaf_unfold, hA, if_neg Bool.false_ne_true, hC, if_pos rfl]
  rfl

theorem get_leaf_svg_namespace_case_insensitive_witness :
    get_leaf (.element (.mk (some (svgTag "tspan")) [] (some "B") none []))
      "TSPAN" false false =
    .ok (some (.mk (some (svgTag "tspan")) [] (some "B") none [])) :=
  get_leaf_svg_namespace_case_insensitive "tspan" "TSPAN" [] (some "B") none
    false (by decide) (by decide) (by decide)


/-- Claim C1 counterexample: the resolver returns the root — the shallower
ancestor candidate — even though the first child's subtree yields no
candidate of its own and a candidate match sits deeper in the later sibling
subtree.  The first child's recursive call merely echoes the inherited
ancestor, which short-circuits the remaining siblings. -/
theorem get_leaf_ancestor_leak_cex :
    _get_leaf exC1Root "tspan" false false none = .ok (some exC1Root) ∧
    exC1Root.children = [exC1First, exC1Deep] ∧
    _get_leaf exC1First "tspan" false false none = .ok none ∧
    _get_leaf exC1First "tspan" false false (some exC1Root) =
      .ok (some exC1Root) ∧
    isCandidate exC1Deep "tspan" false false = true ∧
    exC1Root.text ≠ exC1Deep.text := by
  exact ⟨by decide, by decide, by decide, by decide, by decide, by decide⟩

/-- Claim C1 amended: the resolver returns the first child recursive result
that is non-absent, but each recursive call inherits the remembered ancestor
candidate, so it is non-absent whenever the inherited candidate is.  Hence
once a candidate is remembered the result is decided by the first child's
call alone and later siblings are never consulted; the remembered candidate
is returned directly only when the node has no children. -/
theorem get_leaf_first_child_short_circuit (el : Element) (tag : String)
    (se sp : Bool) (ma : Option Element) (hA : assertTrips el = false) :
    (el.children = [] →
      _get_leaf el tag se sp ma =
        .ok (if isCandidate el tag se sp then some el else ma)) ∧
    (∀ c rest, el.children = c :: rest →
      (if isCandidate el tag se sp then some el else ma).isSome = true →
      _get_leaf el tag se sp ma =
        _get_leaf c tag se sp
          (if isCandidate el tag se sp then some el else ma)) ∧
    (ma.isSome = true → _get_leaf el tag se sp ma ≠ .ok none) := by
  refine ⟨?_, ?_, fun hs => _get_leaf_ne_ok_none el tag se sp ma hs⟩
  · intro hch
    rw [_get_leaf_unfold, hA, if_neg Bool.false_ne_true, hch, _get_leaf_list_nil]
  · intro c rest hch hsome
    rw [_get_leaf_unfold, hA, if_neg Bool.false_ne_true, hch]
    cases hres : _get_leaf c tag se sp
        (if isCandidate el tag se sp then some el else ma) with
    | error e => rw [_get_leaf_list_cons_error c rest tag se sp _ e hres]
    | ok o =>
      cases o with
      | some r => rw [_get_leaf_list_cons_some c rest tag se sp _ r hres]
      | none => exact absurd hres (_get_leaf_ne_ok_none c tag se sp _ hsome)

theorem get_leaf_first_child_short_circuit_witness :
    _get_leaf exC1Root "tspan" false false none =
      _get_leaf exC1First "tspan" false false
        (if isCandidate exC1Root "tspan" false false then some exC1Root
         else none) :=
  ((get_leaf_first_child_short_circuit exC1Root "tspan" false false none
      (by decide)).2.1) exC1First [exC1Deep] (by decide) (by decide)

/-- Claim C3 counterexample: this node is recorded as a candidate by the code
— its only child's raw tag `(svgTag "tspan")` differs from the request string
"tspan", so `child_tags` sees no same-tag child — even though under the
claim's normalized comparison the child is a same-tag child and the node has
no own text, so the claim says it is not a candidate. -/
theorem candidate_same_tag_raw_cex :
    isCandidate exC3El "tspan" false false = true ∧
    candidateSpecNormalized exC3El "tspan" false false = false ∧
    tag_matches exC3Child "tspan" = true ∧
    child_tags exC3El "tspan" = [] ∧
    has_text exC3El false false = false := by
  exact ⟨by decide, by decide, by decide, by decide, by decide⟩

/-- Claim C3 amended: a visited node is recorded as the candidate match iff
its cleaned tag is nonempty and equals the request case-insensitively AND
either `skip_empty` is false and no child's RAW tag string exactly equals the
requested tag (the `child_tags` comparison is neither normalized nor
case-insensitive), or the node satisfies `has_text(node, spacing,
recursive=false)`. -/
theorem get_leaf_candidate_condition (el : Element) (tag : String)
    (se sp : Bool) (ma : Option Element) (hA : assertTrips el = false) :
    (_get_leaf el tag se sp ma =
      _get_leaf_list el.children tag se sp
        (if recordedCandidateAmended el tag se sp then some el else ma)) ∧
    recordedCandidateAmended el tag se sp = isCandidate el tag se sp := by
  have heq : recordedCandidateAmended el tag se sp = isCandidate el tag se sp := rfl
  refine ⟨?_, heq⟩
  rw [heq, _get_leaf_unfold, hA, if_neg Bool.false_ne_true]

theorem get_leaf_candidate_condition_witness :
    _get_leaf exC3El "tspan" false false none =
      _get_leaf_list exC3El.children "tspan" false false
        (if recordedCandidateAmended exC3El "tspan" false false then some exC3El
         else none) :=
  (get_leaf_candidate_condition exC3El "tspan" false false none (by decide)).1

theorem loop_text_present_eq_own (t : String) (sp : Bool) :
    loop_text_present t sp = own_text_present (some t) sp := by
  by_cases h : t = ""
  · subst h
    cases sp <;> decide
  · simp [loop_text_present, own_text_present, h]

/-- Claim C8: `has_text` is: own-text presence (text non-absent, and spacing
or non-whitespace content), else — only when `recursive` — presence of some
`itertext` fragment under the same test; and the three-space example behaves
as the spec states under both spacing policies. -/
theorem has_text_characterization :
    (∀ (el : Element) (sp rec : Bool),
        has_text el sp rec =
          (own_text_present el.text sp ||
            (rec && (itertext el).any (fun t => own_text_present (some t) sp)))) ∧
    has_text exSpaces false true = false ∧
    has_text exSpaces true true = true := by
  refine ⟨?_, by decide, by decide⟩
  intro el sp rec
  rw [has_text]
  by_cases hown : own_text_present el.text sp = true
  · rw [if_pos hown, hown, Bool.true_or]
  · have hf : own_text_present el.text sp = false := Bool.not_eq_true _ ▸ hown
    rw [if_neg hown, hf, Bool.false_or]
    cases rec with
    | false => rfl
    | true =>
      rw [show (fun t => loop_text_present t sp) =
          (fun t => own_text_present (some t) sp) from
        funext (fun t => loop_text_present_eq_own t sp)]
      simp


/-- Claim C6: the selection policy of `used_element` (pickOne).  When the
filter passes exactly one element, that element is returned; when it passes
several, the first passer in document order is returned and no exception is
raised; when it passes none, the first element of the (non-empty) original
input is returned if the fallback flag is set, and absent otherwise.  The
last conjunct is the spec's concrete example. -/
theorem used_element_selection_policy :
    (∀ (elements : List Element) (sp flag : Bool) (u : Element),
        used_elements elements sp = [u] →
        used_element elements sp flag = .ok (some u)) ∧
    (∀ (elements : List Element) (sp flag : Bool),
        1 < (used_elements elements sp).length →
        used_element elements sp flag =
          .ok (used_elements elements sp).head?) ∧
    (∀ (elements : List Element) (sp : Bool) (e : Element) (rest : List Element),
        used_elements elements sp = [] → elements = e :: rest →
        used_element elements sp true = .ok (some e)) ∧
    (∀ (elements : List Element) (sp : Bool),
        used_elements elements sp = [] →
        used_element elements sp false = .ok none) ∧
    used_element [exBlank, exBlank, exUsed, exBlank] false false =
      .ok (some exUsed) := by
  refine ⟨?_, ?_, ?_, ?_, by decide⟩
  · intro elements sp flag u h
    by_cases h1 : (flag && elements.length == 1) = true
    · have hlen : elements.length = 1 := by
        have h2 := (Bool.and_eq_true _ _ |>.mp h1).2
        simpa using h2
      match elements, hlen with
      | [e], _ =>
        have he : e = u := by
          rw [used_elements, List.filter_cons] at h
          split at h
          · injection h
          · exact absurd h (by simp)
        rw [used_element.eq_def, if_pos h1, he]
        rfl
    · rw [used_element.eq_def, if_neg h1, h]
      rfl
  · intro elements sp flag hgt
    have h1 : (flag && elements.length == 1) = false := by
      have hle := List.length_filter_le (fun elem => has_text elem sp) elements
      rw [used_elements] at hgt
      have : (elements.length == 1) = false := by
        rw [beq_eq_false_iff_ne]
        omega
      rw [this, Bool.and_false]
    have h0 : ((used_elements elements sp).length == 0) = false := by
      rw [beq_eq_false_iff_ne]
      omega
    rw [used_element.eq_def, if_neg (by rw [h1]; exact Bool.false_ne_true)]
    show (if ((used_elements elements sp).length == 0) = true then _ else _) = _
    rw [if_neg (by rw [h0]; exact Bool.false_ne_true)]
  · intro elements sp e rest hused helems
    subst helems
    by_cases hrest : rest = []
    · subst hrest
      rw [used_element.eq_def, if_pos (by rfl)]
      rfl
    · have h1 : (true && ((e :: rest).length == 1)) = false := by
        have : ((e :: rest).length == 1) = false := by
          rw [beq_eq_false_iff_ne]
          simp only [List.length_cons]
          intro hc
          exact hrest (List.length_eq_zero.mp (by omega))
        rw [this, Bool.and_false]
      rw [used_element.eq_def, if_neg (by rw [h1]; exact Bool.false_ne_true), hused]
      rfl
  · intro elements sp hused
    rw [used_element.eq_def, if_neg (by rw [Bool.false_and]; exact Bool.false_ne_true),
      hused]
    rfl

theorem used_element_selection_policy_witness :
    used_element [exBlank, exUsed] false false = .ok (some exUsed) :=
  used_element_selection_policy.1 [exBlank, exUsed] false false exUsed
    (by decide)


/-- Claim C5 counterexample: the identifier resolves to one all-empty
candidate (the outer tspan, which wraps a nested empty tspan); `setField`
writes "17" into it and reports success, yet `getField` immediately
afterwards returns absent instead of "17": the leaf resolver descends past
the written candidate to the nested empty tspan. -/
theorem setField_getField_roundtrip_cex :
    getLeavesById exC5Doc "f" "text" "tspan" false false =
      some [([0, 0], exC5Outer)] ∧
    pyTruthy exC5Outer.text = false ∧
    setField exC5Doc "f" "17" false false = .ok (exC5Doc2, true) ∧
    getField exC5Doc2 "f" = .ok none := by
  exact ⟨by decide, by decide, by decide, by decide⟩

theorem writtenTspans_blank (texts : List (Option String)) :
    writtenTspans texts "" = texts.map (fun _ => blankTspan (some "")) := by
  cases texts with
  | nil => rfl
  | cons t rest => rfl

theorem setTextAtList_append (pre : List Element) (c : Element)
    (rest : List Element) (v : Option String) :
    setTextAtList (pre ++ c :: rest) pre.length [] v =
      pre ++ setTextAt c [] v :: rest := by
  induction pre with
  | nil => rfl
  | cons a pre ih =>
    rw [List.cons_append, List.length_cons]
    show a :: setTextAtList (pre ++ c :: rest) pre.length [] v = _
    rw [ih]
    rfl

theorem setLeavesTexts_fieldDoc (id : String) :
    ∀ (texts : List (Option String)) (pre : List Element) (v : String),
      (setLeavesTexts (fieldDoc id (pre ++ texts.map blankTspan))
        (((texts.map blankTspan).enumFrom pre.length).map
          (fun jc => [0] ++ [jc.1])) v).1 =
      fieldDoc id (pre ++ writtenTspans texts v) := by
  intro texts
  induction texts with
  | nil => intro pre v; rfl
  | cons t rest ih =>
    intro pre v
    rw [List.map_cons, List.enumFrom_cons, List.map_cons]
    show (setLeavesTexts
        (setTextAt (fieldDoc id (pre ++ blankTspan t :: rest.map blankTspan))
          ([0] ++ [pre.length]) (some v))
        (((rest.map blankTspan).enumFrom (pre.length + 1)).map
          (fun jc => [0] ++ [jc.1])) "").1 = _
    have hset : setTextAt (fieldDoc id (pre ++ blankTspan t :: rest.map blankTspan))
        ([0] ++ [pre.length]) (some v) =
        fieldDoc id ((pre ++ [blankTspan (some v)]) ++ rest.map blankTspan) := by
      show fieldDoc id (setTextAtList (pre ++ blankTspan t :: rest.map blankTspan)
        pre.length [] (some v)) = _
      rw [setTextAtList_append]
      rw [List.append_cons]
      rfl
    rw [hset]
    have ih2 := ih (pre ++ [blankTspan (some v)]) ""
    rw [List.length_append] at ih2
    simp only [List.length_cons, List.length_nil, Nat.zero_add] at ih2
    rw [ih2, List.append_assoc, List.singleton_append, writtenTspans_blank]
    rfl

theorem descWPList_blankTspans (texts : List (Option String)) :
    ∀ (i : Nat), descWPList (texts.map blankTspan) i =
      (texts.enumFrom i).map (fun p => ([p.1], blankTspan p.2)) := by
  induction texts with
  | nil => intro i; rfl
  | cons t rest ih =>
    intro i
    rw [List.map_cons, List.enumFrom_cons, List.map_cons]
    show ([i], blankTspan t) ::
        ((descWP (blankTspan t)).map (fun q => (i :: q.1, q.2)) ++
          descWPList (rest.map blankTspan) (i + 1)) = _
    rw [show descWP (blankTspan t) = [] from rfl, List.map_nil, List.nil_append,
      ih]

theorem descWP_fieldDoc (id : String) (L : List Element) :
    descWP (fieldDoc id L) =
      ([0], fieldText id L) ::
        (descWP (fieldText id L)).map (fun q => (0 :: q.1, q.2)) := by
  show ([0], fieldText id L) ::
      ((descWP (fieldText id L)).map (fun q => (0 :: q.1, q.2)) ++ []) = _
  rw [List.append_nil]

theorem getElementByIdWP_fieldDoc (id : String) (L : List Element) :
    getElementByIdWP (fieldDoc id L) id = some ([0], fieldText id L) := by
  rw [getElementByIdWP, descWP_fieldDoc]
  rw [List.filter_cons_of_pos]
  · rfl
  · show (getAttr (fieldText id L) "id" == some id) = true
    have : getAttr (fieldText id L) "id" = some id := rfl
    rw [this]
    exact beq_self_eq_true _

theorem _get_leaf_fieldText (id : String) (tx : Option String)
    (more : List Element) :
    _get_leaf (fieldText id (blankTspan tx :: more)) "tspan" false false none =
      .ok (some (blankTspan tx)) := rfl

theorem getField_fieldDoc_written (id : String) (tx : Option String)
    (more : List Element) :
    getField (fieldDoc id (blankTspan tx :: more)) id = .ok tx := by
  rw [getField, getElementByIdWP_fieldDoc]
  show (match _get_leaf (fieldText id (blankTspan tx :: more)) "tspan" false
      false none with
    | Except.error e => Except.error e
    | Except.ok none => Except.ok none
    | Except.ok (some leaf) => Except.ok leaf.text) = Except.ok tx
  rw [_get_leaf_fieldText]
  rfl


theorem enumFrom_blankTspans_filter (texts : List (Option String)) :
    ∀ (i : Nat),
      ((texts.map blankTspan).enumFrom i).filter
        (fun jc => jc.2.tag == some (svgTag "tspan")) =
      (texts.map blankTspan).enumFrom i := by
  induction texts with
  | nil => intro i; rfl
  | cons t rest ih =>
    intro i
    rw [List.map_cons, List.enumFrom_cons, List.filter_cons_of_pos, ih]
    rfl

theorem getLeavesById_fieldDoc (id : String) (t0 : Option String)
    (trest : List (Option String)) :
    getLeavesById (fieldDoc id ((t0 :: trest).map blankTspan)) id "text" "tspan"
      false false =
    some ((((t0 :: trest).map blankTspan).enumFrom 0).map
      (fun jc => ([0] ++ [jc.1], jc.2))) := by
  have hattr : (getAttr (fieldText id ((t0 :: trest).map blankTspan)) "id" ==
      some id) = true := by
    rw [show getAttr (fieldText id ((t0 :: trest).map blankTspan)) "id" = some id
      from rfl]
    show (id == id) = true
    exact beq_self_eq_true id
  have hq1 : (descWP (fieldDoc id ((t0 :: trest).map blankTspan))).filter
      (fun q => q.2.tag == some (svgTag "text") && getAttr q.2 "id" == some id) =
      [([0], fieldText id ((t0 :: trest).map blankTspan))] := by
    rw [descWP_fieldDoc]
    rw [List.filter_cons_of_pos]
    · have htail : ((descWP (fieldText id ((t0 :: trest).map blankTspan))).map
          (fun q => (0 :: q.1, q.2))).filter
          (fun q => q.2.tag == some (svgTag "text") &&
            getAttr q.2 "id" == some id) = [] := by
        rw [show descWP (fieldText id ((t0 :: trest).map blankTspan)) =
          descWPList ((t0 :: trest).map blankTspan) 0 from rfl]
        rw [descWPList_blankTspans, List.map_map]
        rw [List.filter_eq_nil_iff]
        intro a ha
        obtain ⟨p, hp, rfl⟩ := List.mem_map.mp ha
        intro hcontra
        simp only [Function.comp_apply] at hcontra
        have h1 := (Bool.and_eq_true _ _ |>.mp hcontra).1
        have h2 : ((blankTspan p.2).tag == some (svgTag "text")) = false := rfl
        rw [h1] at h2
        exact Bool.noConfusion h2
      rw [htail]
    · show ((fieldText id ((t0 :: trest).map blankTspan)).tag ==
        some (svgTag "text") &&
        (getAttr (fieldText id ((t0 :: trest).map blankTspan)) "id" ==
          some id)) = true
      rw [hattr]
      rfl
  rw [getLeavesById.eq_def]
  simp only [hq1, List.flatMap_cons, List.flatMap_nil, List.append_nil]
  rw [show (fieldText id ((t0 :: trest).map blankTspan)).children =
    (t0 :: trest).map blankTspan from rfl]
  rw [show ((t0 :: trest).map blankTspan).enum =
    ((t0 :: trest).map blankTspan).enumFrom 0 from rfl]
  rw [enumFrom_blankTspans_filter]
  rw [List.map_cons, List.enumFrom_cons, List.map_cons]
  rfl


theorem setField_of_leaves (root : Element) (id v : String) (se sp : Bool)
    (leaves : List (List Nat × Element))
    (hgl : getLeavesById root id "text" "tspan" se sp = some leaves)
    (hlen : 0 < leaves.length) :
    setField root id v se sp =
      .ok ((setLeavesTexts root (leaves.map (fun q => q.1)) v).1, true) := by
  rw [setField.eq_def, hgl]
  show (if leaves.length > 0 then
      Except.ok ((setLeavesTexts root (leaves.map (fun q => q.1)) v).1, true)
    else _) = _
  rw [if_pos hlen]

/-- Claim C5 amended: the write-then-read round trip holds when the
identified element is a `text` whose children are exactly the childless
all-empty candidate tspans: `setField` succeeds, exactly the first candidate
ends up holding "17" while every other candidate holds the empty string, and
`getField` immediately afterwards returns "17".  (The counterexample shows
the round trip fails as soon as a candidate wraps a nested tspan.) -/
theorem setField_getField_roundtrip_flat (id : String)
    (texts : List (Option String)) (hne : texts ≠ [])
    (hempty : ∀ tx ∈ texts, pyTruthy tx = false) :
    setField (fieldDoc id (texts.map blankTspan)) id "17" false false =
      .ok (fieldDoc id (writtenTspans texts "17"), true) ∧
    writtenTspans texts "17" =
      blankTspan (some "17") :: texts.tail.map (fun _ => blankTspan (some "")) ∧
    getField (fieldDoc id (writtenTspans texts "17")) id = .ok (some "17") := by
  match texts, hne with
  | t0 :: trest, _ =>
    refine ⟨?_, rfl, ?_⟩
    · refine (setField_of_leaves _ id "17" false false _
        (getLeavesById_fieldDoc id t0 trest) (by simp)).trans ?_
      rw [List.map_map]
      have hfun : ((fun (q : List Nat × Element) => q.1) ∘
          (fun (jc : Nat × Element) => (([0] ++ [jc.1] : List Nat), jc.2))) =
          (fun (jc : Nat × Element) => ([0] ++ [jc.1] : List Nat)) := rfl
      rw [hfun]
      have hs := setLeavesTexts_fieldDoc id (t0 :: trest) [] "17"
      simp only [List.nil_append, List.length_nil] at hs
      rw [hs]
    · exact getField_fieldDoc_written id (some "17")
        (trest.map (fun _ => blankTspan (some "")))

theorem setField_getField_roundtrip_flat_witness :
    setField (fieldDoc "a" ([none, none, none].map blankTspan)) "a" "17"
      false false =
      .ok (fieldDoc "a" (writtenTspans [none, none, none] "17"), true) ∧
    writtenTspans [none, none, none] "17" =
      blankTspan (some "17") ::
        ([none, none] : List (Option String)).map
          (fun _ => blankTspan (some "")) ∧
    getField (fieldDoc "a" (writtenTspans [none, none, none] "17")) "a" =
      .ok (some "17") := by
  have h := setField_getField_roundtrip_flat "a" [none, none, none]
    (by decide) (by intro tx htx; cases htx with
      | head => rfl
      | tail _ h2 => cases h2 with
        | head => rfl
        | tail _ h3 => cases h3 with
          | head => rfl
          | tail _ h4 => cases h4)
  exact h

